import Mathlib

/-!
# Verification of the hydrate asset-pipeline core

A shallow embedding of the parts of the `hydrate` repository needed to check
its specification: the nexdb property data set (prototype-inheriting,
override-aware property store), the handle reference-counting semantics,
the import staleness check, artifact-id derivation, handle serialization,
and location-tree path population.

Modelling conventions:
* Rust `HashMap<K, V>` is modelled as an association list `List (K × V)`
  (lookup returns the first match; insert replaces).
* Rust `HashSet<T>` keeping dynamic-array entries is modelled as a `List T`
  in insertion order (the spec fixes entry order as insertion order; the set
  type's iteration order is not part of the sources given).
* 128-bit ids (UUIDs, fingerprints) are modelled as `Nat`.
* Property paths, stored as dotted strings in the source, are modelled as
  lists of structured path tokens, the representation the spec itself
  recommends as semantics-preserving (`FieldName | StaticIdx | DynamicKey |
  MapKey | NullableDescent`).
* Functions that can panic in Rust (`unwrap`) return `Option`; `none`
  models the panic. Loops over prototype chains take a fuel argument;
  `none` also models exhausting fuel (i.e. a diverging chain walk).
-/

namespace Hydrate

/-- Association list lookup: first entry with the given key, as `HashMap::get`. -/
def alookup {α β : Type} [DecidableEq α] : List (α × β) → α → Option β
  | [], _ => none
  | (k, v) :: rest, key => if k = key then some v else alookup rest key

/-- Association list insert-or-replace, as `HashMap::insert` (ignoring the
returned previous value). -/
def ainsert {α β : Type} [DecidableEq α] : List (α × β) → α → β → List (α × β)
  | [], key, value => [(key, value)]
  | (k, v) :: rest, key, value =>
    if k = key then (key, value) :: rest else (k, v) :: ainsert rest key value

/-- Association list removal of every entry with the key, as `HashMap::remove`
(ignoring the returned previous value). -/
def aremove {α β : Type} [DecidableEq α] : List (α × β) → α → List (α × β)
  | [], _ => []
  | (k, v) :: rest, key =>
    if k = key then aremove rest key else (k, v) :: aremove rest key

@[simp] theorem alookup_nil {α β : Type} [DecidableEq α] (key : α) :
    alookup ([] : List (α × β)) key = none := rfl

@[simp] theorem alookup_cons {α β : Type} [DecidableEq α] (k : α) (v : β)
    (rest : List (α × β)) (key : α) :
    alookup ((k, v) :: rest) key = if k = key then some v else alookup rest key := rfl

/-! ## Reference-counting handles (`hydrate-base/src/handle.rs`) -/

/-- `LoadHandle`: loading id allocated by the loader; the high bit marks
indirect handles. Modelled as the raw 64-bit value (a `Nat`). -/
abbrev LoadHandle := Nat

/-- `ArtifactId`: 128-bit id of a built artifact. -/
abbrev ArtifactId := Nat

/-- Operations on an artifact reference (`enum RefOp`). -/
inductive RefOp where
  | decrease (handle : LoadHandle)
  | increase (handle : LoadHandle)
  | increaseUuid (id : ArtifactId)
deriving DecidableEq, Repr

/-- `enum HandleRefType`: strong, weak or internal reference, plus the
implementation-detail `none` state used while swapping. The `Sender<RefOp>`
carried by each variant is left implicit; emitted ops are returned instead. -/
inductive HandleRefType where
  | strong
  | weak
  | internal
  | noneState
deriving DecidableEq, Repr

/-- `struct HandleRef { id, ref_type }`. -/
structure HandleRef where
  id : LoadHandle
  ref_type : HandleRefType
deriving DecidableEq, Repr

/-- `impl Drop for HandleRef`: a strong reference sends one `Decrease` and
becomes weak; every other variant is left unchanged and sends nothing.
Returns the list of emitted ref-ops together with the post-drop state. -/
def HandleRef.drop : HandleRef → List RefOp × HandleRef
  | ⟨id, .strong⟩ => ([RefOp.decrease id], ⟨id, .weak⟩)
  | h => ([], h)

/-- `impl Clone for HandleRef`: internal and strong references send one
`Increase` and the clone is strong; weak clones silently; cloning the
`None` state panics (modelled as `none`). -/
def HandleRef.clone : HandleRef → Option (List RefOp × HandleRef)
  | ⟨id, .strong⟩ => some ([RefOp.increase id], ⟨id, .strong⟩)
  | ⟨id, .internal⟩ => some ([RefOp.increase id], ⟨id, .strong⟩)
  | ⟨id, .weak⟩ => some ([], ⟨id, .weak⟩)
  | ⟨_, .noneState⟩ => none

/-! ## Schema model (`nexdb/src/schema`) -/

/-- `ObjectId`: 128-bit id of an asset in the data set; `0` models the null id. -/
abbrev ObjectId := Nat

/-- A UUID, modelled as a 128-bit natural number. -/
abbrev Uuid := Nat

/-- One segment of a property path. The source stores paths as dotted
strings; the spec recommends this structured-token representation as a
semantics-preserving replacement (field name, static-array index,
dynamic-array entry UUID, map key, or the literal `value` segment that
descends into a nullable). -/
inductive PathToken where
  | field (name : String)
  | staticIdx (i : Nat)
  | dynamicKey (k : Uuid)
  | mapKey (k : String)
  | nullableDescent
deriving DecidableEq, Repr

/-- A property path: a sequence of path tokens. -/
abbrev PropPath := List PathToken

/-- `enum Schema`: the anonymous-type algebra. Named types are referenced by
fingerprint, exactly as in the source. -/
inductive Schema where
  | nullable (inner : Schema)
  | boolean
  | i32
  | i64
  | u32
  | u64
  | f32
  | f64
  | bytes
  | buffer
  | string
  | staticArray (item : Schema) (length : Nat)
  | dynamicArray (item : Schema)
  | map (key : Schema) (value : Schema)
  | recordRef (recordName : String)
  | namedType (fingerprint : Nat)
deriving DecidableEq, Repr

/-- `SchemaRecord`: a named record type with ordered fields. Aliases and
markup are not needed by any claim and are omitted. -/
structure SchemaRecord where
  recordName : String
  fingerprint : Nat
  fields : List (String × Schema)
deriving DecidableEq, Repr

/-- `SchemaEnum`: a named enum type; only its symbol names matter here. -/
structure SchemaEnum where
  enumName : String
  fingerprint : Nat
  symbols : List String
deriving DecidableEq, Repr

/-- `enum SchemaNamedType`: record, enum or fixed-size byte blob. -/
inductive SchemaNamedType where
  | record (r : SchemaRecord)
  | enumType (e : SchemaEnum)
  | fixed (fixedName : String) (fingerprint : Nat) (length : Nat)
deriving DecidableEq, Repr

/-- The named-type registry of a `SchemaSet`: fingerprint → named type. -/
abbrev SchemaMap := List (Nat × SchemaNamedType)

/-- `Schema::is_nullable`. -/
def Schema.is_nullable : Schema → Bool
  | .nullable _ => true
  | _ => false

/-- `Schema::is_dynamic_array`. -/
def Schema.is_dynamic_array : Schema → Bool
  | .dynamicArray _ => true
  | _ => false

/-- `SchemaRecord::field_schema`: first field with the given name. -/
def SchemaRecord.field_schema (r : SchemaRecord) (fieldName : String) : Option Schema :=
  alookup r.fields fieldName

/-- `Schema::find_property_schema`: one navigation step. A nullable accepts
only the `value` segment; a named type delegates to record field lookup
(enums and fixed types have no properties); a static array accepts a numeric
index; a dynamic array accepts any entry UUID; a map accepts any key. -/
def Schema.find_property_schema (s : Schema) (tok : PathToken) (named_types : SchemaMap) :
    Option Schema :=
  match s, tok with
  | .nullable inner, .nullableDescent => some inner
  | .namedType fp, .field name =>
    match alookup named_types fp with
    | some (.record r) => r.field_schema name
    | some _ => none
    | none => none
  | .staticArray item _, .staticIdx _ => some item
  | .dynamicArray item, .dynamicKey _ => some item
  | .map _ value, .mapKey _ => some value
  | _, _ => none

/-- Walk a whole property path from a schema, one
`Schema.find_property_schema` step per token. -/
def Schema.find_property_path (s : Schema) (named_types : SchemaMap) :
    List PathToken → Option Schema
  | [] => some s
  | tok :: rest =>
    match s.find_property_schema tok named_types with
    | some next => next.find_property_path named_types rest
    | none => none

/-- Modelled from the spec: `SchemaRecord::find_property_schema` over a full
dotted path (the multi-segment walker is declared in the sources but its
body is not among them). The first segment is looked up directly in the
record's fields, then the remaining segments are walked with the one-step
`Schema.find_property_schema`. -/
def SchemaRecord.find_property_schema (r : SchemaRecord) (named_types : SchemaMap)
    (path : PropPath) : Option Schema :=
  match path with
  | .field name :: rest =>
    match r.field_schema name with
    | some s => s.find_property_path named_types rest
    | none => none
  | _ => none

/-- The ancestor lists collected while resolving a property path:
nullable ancestors to null-check, dynamic-array and map ancestors to check
for replace mode, and (dynamic-array path, accessed UUID) pairs to check for
liveness. -/
structure AncestorLists where
  nullable_ancestors : List PropPath := []
  dynamic_array_ancestors : List PropPath := []
  map_ancestors : List PropPath := []
  accessed_dynamic_array_keys : List (PropPath × Uuid) := []
deriving DecidableEq, Repr

/-- Modelled from the spec: the interior of
`property_schema_and_path_ancestors_to_check` (declared in
`nexdb/src/database` but its body is not among the sources). While walking
the path it collects, in walk order: every nullable ancestor entered through
a `value` segment, every dynamic-array and map ancestor navigated through,
and every (dynamic-array path, accessed UUID) pair. -/
def property_path_walk (named_types : SchemaMap) (s : Schema) (donePath : PropPath)
    (path : List PathToken) (lists : AncestorLists) : Option (Schema × AncestorLists) :=
  match path with
  | [] => some (s, lists)
  | tok :: rest =>
    match s, tok with
    | .nullable inner, .nullableDescent =>
      property_path_walk named_types inner (donePath ++ [tok]) rest
        { lists with nullable_ancestors := lists.nullable_ancestors ++ [donePath] }
    | .namedType fp, .field name =>
      match alookup named_types fp with
      | some (.record r) =>
        match r.field_schema name with
        | some fieldSchema =>
          property_path_walk named_types fieldSchema (donePath ++ [tok]) rest lists
        | none => none
      | some _ => none
      | none => none
    | .staticArray item _, .staticIdx _ =>
      property_path_walk named_types item (donePath ++ [tok]) rest lists
    | .dynamicArray item, .dynamicKey k =>
      property_path_walk named_types item (donePath ++ [tok]) rest
        { lists with
            dynamic_array_ancestors := lists.dynamic_array_ancestors ++ [donePath],
            accessed_dynamic_array_keys := lists.accessed_dynamic_array_keys ++ [(donePath, k)] }
    | .map _ value, .mapKey _ =>
      property_path_walk named_types value (donePath ++ [tok]) rest
        { lists with map_ancestors := lists.map_ancestors ++ [donePath] }
    | _, _ => none

/-- Modelled from the spec: `property_schema_and_path_ancestors_to_check`
applied to an object's record schema. The first segment must name a field of
the record; the rest of the path is walked collecting ancestor lists. -/
def property_schema_and_path_ancestors_to_check (named_types : SchemaMap)
    (object_schema : SchemaRecord) (path : PropPath) : Option (Schema × AncestorLists) :=
  match path with
  | .field name :: rest =>
    match object_schema.field_schema name with
    | some s => property_path_walk named_types s [PathToken.field name] rest {}
    | none => none
  | _ => none

/-! ## Values and overrides -/

/-- `enum NullOverride`: an explicit override of a nullable field's state. -/
inductive NullOverride where
  | setNull
  | setNonNull
deriving DecidableEq, Repr

/-- Modelled from the spec: `enum Value` (its definition is not among the
sources). One variant per leaf kind of the schema algebra; `null` stands in
for the default of composite/nullable schemas, whose concrete default the
spec leaves unspecified. Float payloads are raw bit patterns. -/
inductive Value where
  | boolean (b : Bool)
  | i32 (v : Int)
  | i64 (v : Int)
  | u32 (v : Nat)
  | u64 (v : Nat)
  | f32 (bits : Nat)
  | f64 (bits : Nat)
  | bytes (data : List Nat)
  | buffer (data : List Nat)
  | string (s : String)
  | enumValue (symbol : String)
  | recordRef (asset : ObjectId)
  | null
deriving DecidableEq, Repr

/-- Modelled from the spec: `Value::matches_schema` — a value override's
concrete variant must match the schema at its path. Leaf variants match the
corresponding schema constructor; an enum symbol matches a named enum type
that lists the symbol. -/
def Value.matches_schema (v : Value) (s : Schema) (named_types : SchemaMap) : Bool :=
  match v, s with
  | .boolean _, .boolean => true
  | .i32 _, .i32 => true
  | .i64 _, .i64 => true
  | .u32 _, .u32 => true
  | .u64 _, .u64 => true
  | .f32 _, .f32 => true
  | .f64 _, .f64 => true
  | .bytes _, .bytes => true
  | .buffer _, .buffer => true
  | .string _, .string => true
  | .recordRef _, .recordRef _ => true
  | .enumValue sym, .namedType fp =>
    match alookup named_types fp with
    | some (.enumType e) => e.symbols.contains sym
    | _ => false
  | _, _ => false

/-- Modelled from the spec: `Value::default_for_schema` — the deterministic
default value for a terminal schema. Primitive defaults are the evident
zero values; the spec does not pin down defaults of composite schemas, so
they map to `Value.null` (any fixed choice satisfies the claims, which only
require the default to be a function of the terminal schema). -/
def Value.default_for_schema (named_types : SchemaMap) (s : Schema) : Value :=
  match s with
  | .boolean => .boolean false
  | .i32 => .i32 0
  | .i64 => .i64 0
  | .u32 => .u32 0
  | .u64 => .u64 0
  | .f32 => .f32 0
  | .f64 => .f64 0
  | .bytes => .bytes []
  | .buffer => .buffer []
  | .string => .string ""
  | .namedType fp =>
    match alookup named_types fp with
    | some (.enumType e) => .enumValue (e.symbols.headD "")
    | _ => .null
  | _ => .null

/-! ## Data set (`nexdb/src/database/data_set.rs`) -/

/-- `ObjectLocation`: data-source id plus the id of the parent path-node asset. -/
structure ObjectLocation where
  source_id : Nat
  path_node_id : ObjectId
deriving DecidableEq, Repr

/-- `DataObjectInfo`: one asset — schema, name, location, optional prototype,
and the four override maps keyed by property path. -/
structure DataObjectInfo where
  schema : SchemaRecord
  object_name : String
  object_location : ObjectLocation
  prototype : Option ObjectId
  properties : List (PropPath × Value)
  property_null_overrides : List (PropPath × NullOverride)
  properties_in_replace_mode : List PropPath
  dynamic_array_entries : List (PropPath × List Uuid)
deriving DecidableEq, Repr

/-- `DataSet`: keyed collection of assets. -/
structure DataSet where
  objects : List (ObjectId × DataObjectInfo)
deriving DecidableEq, Repr

/-- `DataSet::delete_object`: removes the map entry (the source's TODO
comments note that subobjects are not killed and no tombstone is written). -/
def delete_object (ds : DataSet) (object_id : ObjectId) : DataSet :=
  ⟨aremove ds.objects object_id⟩

/-- The prototype-chain walk of `resolve_is_null`'s final loop: starting at
the given object, return the first null override found, `some none` if the
chain ends without one, `none` on a missing object or exhausted fuel. -/
def findNullOverrideInChain (ds : DataSet) :
    Nat → Option ObjectId → PropPath → Option (Option NullOverride)
  | _, none, _ => some none
  | 0, some _, _ => none
  | fuel + 1, some object_id, path =>
    match alookup ds.objects object_id with
    | none => none
    | some obj =>
      match alookup obj.property_null_overrides path with
      | some v => some (some v)
      | none => findNullOverrideInChain ds fuel obj.prototype path

/-- The prototype-chain walk of `resolve_property`'s final loop: starting at
the given object, return the first value override found, `some none` if the
chain ends without one, `none` on a missing object or exhausted fuel. -/
def findValueOverrideInChain (ds : DataSet) :
    Nat → Option ObjectId → PropPath → Option (Option Value)
  | _, none, _ => some none
  | 0, some _, _ => none
  | fuel + 1, some object_id, path =>
    match alookup ds.objects object_id with
    | none => none
    | some obj =>
      match alookup obj.properties path with
      | some v => some (some v)
      | none => findValueOverrideInChain ds fuel obj.prototype path

/-- The replace-mode test of `do_resolve_dynamic_array`: parent data is not
consulted when any dynamic-array ancestor, any map ancestor, or the path
itself is in the object's replace-mode set. -/
def in_replace_mode (obj : DataObjectInfo) (lists : AncestorLists) (path : PropPath) : Bool :=
  lists.dynamic_array_ancestors.any (fun p => decide (p ∈ obj.properties_in_replace_mode))
    || lists.map_ancestors.any (fun p => decide (p ∈ obj.properties_in_replace_mode))
    || decide (path ∈ obj.properties_in_replace_mode)

/-- `DataSet::do_resolve_dynamic_array`: if no replace mode applies, resolve
the prototype's entries first, then append this object's local entries. -/
def do_resolve_dynamic_array (ds : DataSet) :
    Nat → ObjectId → PropPath → AncestorLists → Option (List Uuid)
  | 0, _, _, _ => none
  | fuel + 1, object_id, path, lists =>
    match alookup ds.objects object_id with
    | none => none
    | some obj =>
      let check_parents := ¬ in_replace_mode obj lists path
      let protoPart :=
        if check_parents then
          match obj.prototype with
          | some proto => do_resolve_dynamic_array ds fuel proto path lists
          | none => some []
        else some []
      match protoPart with
      | none => none
      | some entries => some (entries ++ (alookup obj.dynamic_array_entries path).getD [])

/-- The loop `for checked_property in &nullable_ancestors { ... }` shared by
the resolution routines, parameterised by the null resolver applied to each
ancestor: `some true` when every nullable ancestor resolves to non-null,
`some false` when a check fails, `none` on panic/fuel. -/
def check_nullable_ancestors (resolve : PropPath → Option (Option Bool)) :
    List PropPath → Option Bool
  | [] => some true
  | p :: rest =>
    match resolve p with
    | none => none
    | some (some false) => check_nullable_ancestors resolve rest
    | some _ => some false

/-- The loop `for (path, key) in &accessed_dynamic_array_keys { ... }`,
parameterised by the dynamic-array resolver: `some true` when every
accessed dynamic-array UUID is live. -/
def check_accessed_keys (resolve : PropPath → Option (List Uuid)) :
    List (PropPath × Uuid) → Option Bool
  | [] => some true
  | (p, k) :: rest =>
    match resolve p with
    | none => none
    | some entries =>
      if decide (k ∈ entries) then check_accessed_keys resolve rest
      else some false

mutual

/-- `DataSet::resolve_is_null`: `some none` models the source's `None`
("can't be resolved"); the outer `none` models a panic or exhausted fuel. -/
def resolve_is_null (ds : DataSet) (ss : SchemaMap) :
    Nat → ObjectId → PropPath → Option (Option Bool)
  | 0, _, _ => none
  | fuel + 1, object_id, path =>
    match alookup ds.objects object_id with
    | none => none
    | some obj =>
      match property_schema_and_path_ancestors_to_check ss obj.schema path with
      | none => none
      | some (property_schema, lists) =>
        if ¬ property_schema.is_nullable then some none
        else
          match check_nullable_ancestors (resolve_is_null ds ss fuel object_id)
              lists.nullable_ancestors with
          | none => none
          | some false => some none
          | some true =>
            match check_accessed_keys (resolve_dynamic_array ds ss fuel object_id)
                lists.accessed_dynamic_array_keys with
            | none => none
            | some false => some none
            | some true =>
              match findNullOverrideInChain ds fuel (some object_id) path with
              | none => none
              | some (some v) => some (some (v = NullOverride.setNull))
              | some none => some (some true)

/-- `DataSet::resolve_dynamic_array`: ancestor checks, then the recursive
merge-aware resolution; an unresolvable path yields the empty list. -/
def resolve_dynamic_array (ds : DataSet) (ss : SchemaMap) :
    Nat → ObjectId → PropPath → Option (List Uuid)
  | 0, _, _ => none
  | fuel + 1, object_id, path =>
    match alookup ds.objects object_id with
    | none => none
    | some obj =>
      match property_schema_and_path_ancestors_to_check ss obj.schema path with
      | none => none
      | some (_, lists) =>
        match check_nullable_ancestors (resolve_is_null ds ss fuel object_id)
            lists.nullable_ancestors with
        | none => none
        | some false => some []
        | some true =>
          match check_accessed_keys (resolve_dynamic_array ds ss fuel object_id)
              lists.accessed_dynamic_array_keys with
          | none => none
          | some false => some []
          | some true =>
            do_resolve_dynamic_array ds fuel object_id path lists

end

/-- `DataSet::resolve_property`: ancestor checks, then the prototype-chain
walk; without an override the schema default for the terminal schema is
returned. -/
def resolve_property (ds : DataSet) (ss : SchemaMap) (fuel : Nat) (object_id : ObjectId)
    (path : PropPath) : Option (Option Value) :=
  match alookup ds.objects object_id with
  | none => none
  | some obj =>
    match property_schema_and_path_ancestors_to_check ss obj.schema path with
    | none => none
    | some (property_schema, lists) =>
      match check_nullable_ancestors (resolve_is_null ds ss fuel object_id)
          lists.nullable_ancestors with
      | none => none
      | some false => some none
      | some true =>
        match check_accessed_keys (resolve_dynamic_array ds ss fuel object_id)
            lists.accessed_dynamic_array_keys with
        | none => none
        | some false => some none
        | some true =>
          match findValueOverrideInChain ds fuel (some object_id) path with
          | none => none
          | some (some v) => some (some v)
          | some none => some (some (Value.default_for_schema ss property_schema))

/-- `DataSet::set_property_override`: validate the value against the schema
at the path, check nullable ancestors and accessed dynamic-array keys, and
only then store the override; `(false, ds)` models an error return. -/
def set_property_override (ds : DataSet) (ss : SchemaMap) (fuel : Nat) (object_id : ObjectId)
    (path : PropPath) (value : Value) : Option (Bool × DataSet) :=
  match alookup ds.objects object_id with
  | none => none
  | some obj =>
    match obj.schema.find_property_schema ss path with
    | none => none
    | some property_schema =>
      if ¬ value.matches_schema property_schema ss then some (false, ds)
      else
        match property_schema_and_path_ancestors_to_check ss obj.schema path with
        | none => none
        | some (_, lists) =>
          match check_nullable_ancestors (resolve_is_null ds ss fuel object_id)
              lists.nullable_ancestors with
          | none => none
          | some false => some (false, ds)
          | some true =>
            match check_accessed_keys (resolve_dynamic_array ds ss fuel object_id)
                lists.accessed_dynamic_array_keys with
            | none => none
            | some false => some (false, ds)
            | some true =>
              some (true,
                ⟨ainsert ds.objects object_id
                  { obj with properties := ainsert obj.properties path value }⟩)

/-- `DataSet::set_null_override`: stores the override only when the schema
at the path is nullable; otherwise it silently does nothing. -/
def set_null_override (ds : DataSet) (ss : SchemaMap) (object_id : ObjectId)
    (path : PropPath) (null_override : NullOverride) : Option DataSet :=
  match alookup ds.objects object_id with
  | none => none
  | some obj =>
    match obj.schema.find_property_schema ss path with
    | none => none
    | some property_schema =>
      if property_schema.is_nullable then
        some ⟨ainsert ds.objects object_id
          { obj with property_null_overrides :=
              ainsert obj.property_null_overrides path null_override }⟩
      else some ds

/-- `DataSet::remove_null_override`: removes the override only when the
schema at the path is nullable; otherwise it silently does nothing. -/
def remove_null_override (ds : DataSet) (ss : SchemaMap) (object_id : ObjectId)
    (path : PropPath) : Option DataSet :=
  match alookup ds.objects object_id with
  | none => none
  | some obj =>
    match obj.schema.find_property_schema ss path with
    | none => none
    | some property_schema =>
      if property_schema.is_nullable then
        some ⟨ainsert ds.objects object_id
          { obj with property_null_overrides :=
              aremove obj.property_null_overrides path }⟩
      else some ds

/-! Specification-side view of the prototype chain, used to state that the
nearest override wins. -/

/-- The prototype chain starting at the given object (itself first), as a
list; `none` when an object is missing or the chain does not end within the
fuel. -/
def prototype_chain (ds : DataSet) : Nat → Option ObjectId → Option (List DataObjectInfo)
  | _, none => some []
  | 0, some _ => none
  | fuel + 1, some object_id =>
    match alookup ds.objects object_id with
    | none => none
    | some obj =>
      match prototype_chain ds fuel obj.prototype with
      | none => none
      | some rest => some (obj :: rest)

/-- The nearest override along a prototype chain: the first chain member
carrying an override at the path. -/
def first_override_in_chain (path : PropPath) : List DataObjectInfo → Option Value
  | [] => none
  | obj :: rest =>
    match alookup obj.properties path with
    | some v => some v
    | none => first_override_in_chain path rest

/-! ## Import staleness check (`hydrate-pipeline/src/import_thread_pool.rs`) -/

/-- `AssetId`: 128-bit id of an authored asset. -/
abbrev AssetId := Nat

/-- `ImportDataMetadata`: the header of an import-data (`.if`) file. -/
structure ImportDataMetadata where
  source_file_modified_timestamp : Nat
  source_file_size : Nat
  import_data_contents_hash : Nat
deriving DecidableEq, Repr

/-- `enum ImportType`. Modelled from the spec: the enum's definition is not
among the sources; only the `ImportIfImportDataStale` variant is compared
against, every other request kind forces the import. -/
inductive ImportType where
  | importAlways
  | importIfImportDataStale
deriving DecidableEq, Repr

/-- The body of the per-importable staleness loop in `do_import`: the
importable is stale when its import-data file is missing, when the stored
size/timestamp disagree with the current source file, when the asset has no
last-known import state, or when that state disagrees with the stored
metadata triple. -/
def importable_is_stale (source_file_size source_file_modified_timestamp : Nat)
    (existing_asset_import_state : List (AssetId × ImportDataMetadata))
    (import_data_on_disk : List (AssetId × ImportDataMetadata))
    (asset_id : AssetId) : Bool :=
  match alookup import_data_on_disk asset_id with
  | none => true
  | some metadata =>
    decide (metadata.source_file_size ≠ source_file_size)
      || decide (metadata.source_file_modified_timestamp ≠ source_file_modified_timestamp)
      || match alookup existing_asset_import_state asset_id with
         | none => true
         | some asset_import_state =>
           decide (asset_import_state.import_data_contents_hash ≠ metadata.import_data_contents_hash)
             || decide (asset_import_state.source_file_size ≠ metadata.source_file_size)
             || decide (asset_import_state.source_file_modified_timestamp
                  ≠ metadata.source_file_modified_timestamp)

/-- The head of `do_import`: for an `ImportIfImportDataStale` request whose
requested importables are all fresh, skip — return an empty result without
invoking `import_file` or writing anything. Otherwise `import_file` runs;
its outcome (result map and written files) is plugin-provided and passed in
abstractly. Returns (import_file invoked?, result map, files written). -/
def do_import_model (import_type : ImportType)
    (source_file_size source_file_modified_timestamp : Nat)
    (existing_asset_import_state import_data_on_disk : List (AssetId × ImportDataMetadata))
    (requested_importables : List AssetId)
    (import_file_result : List (AssetId × Nat)) (import_file_writes : List AssetId) :
    Bool × List (AssetId × Nat) × List AssetId :=
  if import_type = ImportType.importIfImportDataStale
      ∧ requested_importables.any
          (importable_is_stale source_file_size source_file_modified_timestamp
            existing_asset_import_state import_data_on_disk) = false
  then (false, [], [])
  else (true, import_file_result, import_file_writes)

/-! ## Artifact id derivation (`hydrate-pipeline/src/job_system/job_system_traits.rs`) -/

/-- Models the external 128-bit SipHasher digest of (asset id, artifact
key): an arbitrary fixed pure mixing function reduced mod 2^128. The claims
depend only on it being a deterministic pure function of its inputs. -/
def hash128 (asset_id : AssetId) (artifact_key : Nat) : Nat :=
  (asset_id * 6364136223846793005 + artifact_key * 1442695040888963407 + 1) % 2 ^ 128

/-- `create_artifact_id`: with no key the artifact id is the asset's UUID;
with a key it is the 128-bit hash of (asset id, key). -/
def create_artifact_id (asset_id : AssetId) (artifact_key : Option Nat) : ArtifactId :=
  match artifact_key with
  | some key => hash128 asset_id key
  | none => asset_id

/-! ## Handle serialization (`hydrate-base/src/handle.rs`, serde section) -/

/-- The active serde scope: the loader's id↔handle mappings made available
to handle serialization through `SerdeContext`. -/
structure SerdeScope where
  artifact_id_of : List (LoadHandle × ArtifactId)
  load_handle_of : List (ArtifactId × LoadHandle)
deriving DecidableEq, Repr

/-- Big-endian byte decomposition, `count` bytes. -/
def natToBytes : Nat → Nat → List Nat
  | 0, _ => []
  | count + 1, v => natToBytes count (v / 256) ++ [v % 256]

/-- `uuid::Bytes`: the 16 big-endian bytes of a 128-bit id. -/
def uuid_bytes (id : ArtifactId) : List Nat :=
  natToBytes 16 id

/-- Reassemble a big-endian byte list into a number (what
`Uuid::from_bytes` yields on the visitor's 16 collected bytes). -/
def bytes_to_uuid (bytes : List Nat) : Nat :=
  bytes.foldl (fun acc b => acc * 256 + b) 0

/-- `serialize_handle`: requires the active serde scope (`with_active`
unwraps the thread-local — its absence is fatal, modelled `none`), then
emits the 16 bytes of the artifact id the loader maps for the load handle
(the null id when unmapped, per `unwrap_or_default`). -/
def serialize_handle (scope : Option SerdeScope) (load : LoadHandle) : Option (List Nat) :=
  match scope with
  | none => none
  | some sc => some (uuid_bytes ((alookup sc.artifact_id_of load).getD 0))

/-- The deserialized handle produced by `Handle::deserialize`: the load
handle bound by the scope's loader, with `Internal` ref type
(`Handle::new_internal`). -/
structure DeserializedHandle where
  handle : LoadHandle
  ref_type : HandleRefType
deriving DecidableEq, Repr

/-- `Handle::deserialize` composed with `get_handle_ref`: the visitor
accepts exactly 16 bytes; an absent serde scope is a fatal error (`none`);
the null artifact id maps to `LoadHandle(0)`; otherwise the scope's loader
must map the artifact id to a load handle (panic when it does not), and the
resulting handle is internal. -/
def deserialize_handle (scope : Option SerdeScope) (bytes : List Nat) :
    Option DeserializedHandle :=
  if bytes.length ≠ 16 then none
  else
    match scope with
    | none => none
    | some sc =>
      let artifact := bytes_to_uuid bytes
      if artifact = 0 then some ⟨0, HandleRefType.internal⟩
      else
        match alookup sc.load_handle_of artifact with
        | none => none
        | some h => some ⟨h, HandleRefType.internal⟩

/-! ## Location-tree path population (`hydrate-model/src/editor/editor_model.rs`) -/

/-- An `ObjectPath`, modelled as its list of components (`db:/` root = `[]`,
`join` appends one component). -/
abbrev ObjectPath := List String

/-- Objects of the data set whose id is not on the visited stack; the
decreasing measure of the path-population walk. -/
def unvisited_count (ds : DataSet) (stack : List ObjectId) : Nat :=
  ds.objects.countP (fun e => decide (e.1 ∉ stack))

theorem countP_le_of_imp {α : Type} (p q : α → Bool) (l : List α)
    (h : ∀ a, p a = true → q a = true) : l.countP p ≤ l.countP q := by
  induction l with
  | nil => simp
  | cons a l ih =>
    simp only [List.countP_cons]
    by_cases hp : p a = true
    · rw [if_pos hp, if_pos (h a hp)]
      omega
    · rw [if_neg hp]
      by_cases hq : q a = true
      · rw [if_pos hq]
        omega
      · rw [if_neg hq]
        omega

theorem unvisited_count_lt {β : Type} (l : List (ObjectId × β)) (k : ObjectId) (v : β)
    (stack : List ObjectId) (hl : alookup l k = some v) (hk : k ∉ stack) :
    l.countP (fun e => decide (e.1 ∉ k :: stack)) < l.countP (fun e => decide (e.1 ∉ stack)) := by
  induction l with
  | nil => simp [alookup] at hl
  | cons a l ih =>
    obtain ⟨ak, av⟩ := a
    simp only [List.countP_cons]
    by_cases hak : ak = k
    · subst hak
      have himp : ∀ e : ObjectId × β,
          decide (e.1 ∉ ak :: stack) = true → decide (e.1 ∉ stack) = true := by
        intro e he
        simp only [decide_eq_true_eq, List.mem_cons, not_or] at he ⊢
        exact he.2
      have hle := countP_le_of_imp _ _ l himp
      have e1 : decide (ak ∉ ak :: stack) = false := by simp
      have e2 : decide (ak ∉ stack) = true := by simpa using hk
      simp only [e1, e2]
      simp only [Bool.false_eq_true, if_false, if_true]
      omega
    · have hl' : alookup l k = some v := by
        simpa [alookup, hak] using hl
      have ihh := ih hl'
      by_cases hmem : ak ∈ stack
      · have e1 : decide (ak ∉ k :: stack) = false := by simp [hmem]
        have e2 : decide (ak ∉ stack) = false := by simp [hmem]
        simp only [e1, e2]
        simp only [Bool.false_eq_true, if_false]
        omega
      · have e1 : decide (ak ∉ k :: stack) = true := by simp [hak, hmem]
        have e2 : decide (ak ∉ stack) = true := by simp [hmem]
        simp only [e1, e2]
        simp only [if_true]
        omega

/-- `EditorModel::do_populate_path`: null node is at the root; a cached node
returns its cached path; re-entering a node already on the visited stack is
a detected cycle, treated as rooted at the source root; otherwise the
parent's path is resolved recursively and the node's name appended. Every
cache miss stores the computed path. The recursion is total: each recursive
step visits an object not yet on the stack, so the unvisited count strictly
decreases. -/
def do_populate_path (ds : DataSet) (stack : List ObjectId)
    (paths : List (ObjectId × ObjectPath)) (path_node : ObjectId) :
    List (ObjectId × ObjectPath) × ObjectPath :=
  if path_node = 0 then (paths, [])
  else
    match alookup paths path_node with
    | some p => (paths, p)
    | none =>
      if hcyc : path_node ∈ stack then
        (ainsert paths path_node [], [])
      else
        match hobj : alookup ds.objects path_node with
        | some obj =>
          if obj.object_name = "" then (ainsert paths path_node [], [])
          else
            let rec_result :=
              do_populate_path ds (path_node :: stack) paths obj.object_location.path_node_id
            let path := rec_result.2 ++ [obj.object_name]
            (ainsert rec_result.1 path_node path, path)
        | none => (ainsert paths path_node [], [])
termination_by unvisited_count ds stack
decreasing_by
  exact unvisited_count_lt ds.objects path_node obj stack hobj hcyc

/-! ## Concrete fixtures used by witnesses -/

/-- A record schema `T { x: i32, n: Nullable<i32>, xs: DynamicArray<i32> }`. -/
def sampleRecord : SchemaRecord :=
  ⟨"T", 1, [("x", Schema.i32), ("n", Schema.nullable Schema.i32),
            ("xs", Schema.dynamicArray Schema.i32)]⟩

/-- An asset with the sample schema, no prototype and no overrides. -/
def sampleObjBare : DataObjectInfo :=
  ⟨sampleRecord, "bare", ⟨7, 0⟩, none, [], [], [], []⟩

/-- A prototype asset: overrides `x = 5`, dynamic-array entries `[10, 11]`. -/
def sampleProto : DataObjectInfo :=
  ⟨sampleRecord, "proto", ⟨7, 0⟩, none,
    [([PathToken.field "x"], Value.i32 5)], [], [],
    [([PathToken.field "xs"], [10, 11])]⟩

/-- A child asset of `sampleProto` (stored at id 1): no value overrides,
local dynamic-array entry `[12]`. -/
def sampleChild : DataObjectInfo :=
  ⟨sampleRecord, "child", ⟨7, 1⟩, some 1,
    [], [], [], [([PathToken.field "xs"], [12])]⟩

/-- Sample data set: prototype at id 1, child at id 2. -/
def sampleDs : DataSet := ⟨[(1, sampleProto), (2, sampleChild)]⟩

/-- A data set whose location parent links form a cycle: 1's parent is 2 and
2's parent is 1. -/
def cyclicDs : DataSet :=
  ⟨[(1, ⟨sampleRecord, "a", ⟨7, 2⟩, none, [], [], [], []⟩),
    (2, ⟨sampleRecord, "b", ⟨7, 1⟩, none, [], [], [], []⟩)]⟩

/-! ## Claims -/

/-- C4: dropping a Strong handle emits exactly one Decrease for its load
handle and leaves the value Weak, so a second drop of the same value emits
nothing; dropping a Weak or Internal handle emits no ref-op; cloning an
Internal or Strong handle emits exactly one Increase and the clone is
Strong; cloning a Weak handle emits nothing and stays Weak. -/
theorem handle_drop_clone_refops :
    ∀ id : LoadHandle,
      HandleRef.drop ⟨id, HandleRefType.strong⟩
          = ([RefOp.decrease id], ⟨id, HandleRefType.weak⟩)
        ∧ (HandleRef.drop (HandleRef.drop ⟨id, HandleRefType.strong⟩).2).1 = []
        ∧ HandleRef.drop ⟨id, HandleRefType.weak⟩ = ([], ⟨id, HandleRefType.weak⟩)
        ∧ HandleRef.drop ⟨id, HandleRefType.internal⟩ = ([], ⟨id, HandleRefType.internal⟩)
        ∧ HandleRef.clone ⟨id, HandleRefType.internal⟩
            = some ([RefOp.increase id], ⟨id, HandleRefType.strong⟩)
        ∧ HandleRef.clone ⟨id, HandleRefType.strong⟩
            = some ([RefOp.increase id], ⟨id, HandleRefType.strong⟩)
        ∧ HandleRef.clone ⟨id, HandleRefType.weak⟩ = some ([], ⟨id, HandleRefType.weak⟩) :=
  fun _ => ⟨rfl, rfl, rfl, rfl, rfl, rfl, rfl⟩

/-- C6: artifact id derivation is a pure function of the producing asset id
and optional key — with no key the artifact id is the asset's UUID, with a
key it is the 128-bit hash of (asset id, key); being a Lean function, equal
inputs trivially give equal outputs. -/
theorem create_artifact_id_pure :
    ∀ (asset_id : AssetId) (key : Nat),
      create_artifact_id asset_id none = asset_id
        ∧ create_artifact_id asset_id (some key) = hash128 asset_id key :=
  fun _ _ => ⟨rfl, rfl⟩

/-- C7: at a concrete data set where asset 2's location parent is asset 1,
`delete_object 1` merely removes entry 1: asset 2 survives with its
location still referring to the now-missing asset 1 — a dangling parent
reference, contradicting the claimed cascade/tombstone semantics. -/
theorem delete_object_dangling_parent :
    alookup (delete_object sampleDs 1).objects 1 = none
      ∧ alookup (delete_object sampleDs 1).objects 2 = some sampleChild
      ∧ sampleChild.object_location.path_node_id = 1 := by
  refine ⟨by decide, by decide, rfl⟩

/-- C10: on a property path whose schema is not nullable, `set_null_override`
and `remove_null_override` return without error and leave the data set
completely unchanged. -/
theorem null_override_non_nullable_noop :
    ∀ (ds : DataSet) (ss : SchemaMap) (object_id : ObjectId) (path : PropPath)
      (ov : NullOverride) (obj : DataObjectInfo) (s : Schema),
      alookup ds.objects object_id = some obj →
      obj.schema.find_property_schema ss path = some s →
      s.is_nullable = false →
      set_null_override ds ss object_id path ov = some ds
        ∧ remove_null_override ds ss object_id path = some ds := by
  intro ds ss object_id path ov obj s hobj hs hnn
  constructor
  · simp [set_null_override, hobj, hs, hnn]
  · simp [remove_null_override, hobj, hs, hnn]

/-- Witness for C10: the non-nullable path `x` of the sample child asset. -/
theorem null_override_non_nullable_noop_witness :
    set_null_override sampleDs [] 2 [PathToken.field "x"] NullOverride.setNull = some sampleDs
      ∧ remove_null_override sampleDs [] 2 [PathToken.field "x"] = some sampleDs :=
  null_override_non_nullable_noop sampleDs [] 2 [PathToken.field "x"] NullOverride.setNull
    sampleChild Schema.i32 (by decide) (by decide) rfl

/-- An importable is not stale exactly when its import-data file exists,
the stored size/timestamp match the current source file, and the asset's
last-known import state matches the stored metadata triple. -/
theorem importable_fresh_iff (size mtime : Nat)
    (state disk : List (AssetId × ImportDataMetadata)) (id : AssetId) :
    importable_is_stale size mtime state disk id = false ↔
      ∃ m, alookup disk id = some m
        ∧ m.source_file_size = size
        ∧ m.source_file_modified_timestamp = mtime
        ∧ ∃ st, alookup state id = some st
            ∧ st.import_data_contents_hash = m.import_data_contents_hash
            ∧ st.source_file_size = m.source_file_size
            ∧ st.source_file_modified_timestamp = m.source_file_modified_timestamp := by
  unfold importable_is_stale
  cases hdisk : alookup disk id with
  | none => simp
  | some m =>
    cases hstate : alookup state id with
    | none => simp [hstate]
    | some st =>
      simp only [hstate, Option.some.injEq, Bool.or_eq_false_iff, decide_eq_false_iff_not,
        Decidable.not_not]
      constructor
      · intro h
        exact ⟨m, rfl, h.1.1, h.1.2, st, rfl, h.2.1.1, h.2.1.2, h.2.2⟩
      · rintro ⟨m', hm', h1, h2, st', hst', h3, h4, h5⟩
        cases hm'
        cases hst'
        exact ⟨⟨h1, h2⟩, ⟨h3, h4⟩, h5⟩

/-- C5: an `ImportIfImportDataStale` request skips `import_file` — returning
an empty result and writing nothing — exactly when every requested
importable's import-data file exists and its stored
(size, timestamp, contents-hash) metadata matches both the current source
file's size/timestamp and the asset's last-known import state; any missing
or mismatched importable forces `import_file` to run. -/
theorem do_import_skips_iff :
    ∀ (it : ImportType) (size mtime : Nat)
      (state disk : List (AssetId × ImportDataMetadata)) (req : List AssetId)
      (res : List (AssetId × Nat)) (writes : List AssetId),
      do_import_model it size mtime state disk req res writes = (false, [], []) ↔
        (it = ImportType.importIfImportDataStale
          ∧ ∀ id ∈ req, ∃ m, alookup disk id = some m
              ∧ m.source_file_size = size
              ∧ m.source_file_modified_timestamp = mtime
              ∧ ∃ st, alookup state id = some st
                  ∧ st.import_data_contents_hash = m.import_data_contents_hash
                  ∧ st.source_file_size = m.source_file_size
                  ∧ st.source_file_modified_timestamp = m.source_file_modified_timestamp) := by
  intro it size mtime state disk req res writes
  have hiff : (it = ImportType.importIfImportDataStale
        ∧ req.any (importable_is_stale size mtime state disk) = false) ↔
      (it = ImportType.importIfImportDataStale
        ∧ ∀ id ∈ req, ∃ m, alookup disk id = some m
            ∧ m.source_file_size = size
            ∧ m.source_file_modified_timestamp = mtime
            ∧ ∃ st, alookup state id = some st
                ∧ st.import_data_contents_hash = m.import_data_contents_hash
                ∧ st.source_file_size = m.source_file_size
                ∧ st.source_file_modified_timestamp = m.source_file_modified_timestamp) := by
    apply and_congr_right
    intro _
    rw [List.any_eq_false]
    constructor
    · intro hall id hid
      exact (importable_fresh_iff size mtime state disk id).mp
        (by simpa using hall id hid)
    · intro hall id hid
      simpa using (importable_fresh_iff size mtime state disk id).mpr (hall id hid)
  unfold do_import_model
  split
  case isTrue hcond =>
    exact iff_of_true rfl (hiff.mp hcond)
  case isFalse hcond =>
    constructor
    · intro h
      exact absurd (congrArg Prod.fst h) (by simp)
    · intro hr
      exact absurd (hiff.mpr hr) hcond

/-- Witness for C5: one requested importable whose on-disk metadata and
asset import state both match the current source file — the worker skips. -/
theorem do_import_skips_iff_witness :
    do_import_model ImportType.importIfImportDataStale 50 100
        [(1, ⟨100, 50, 77⟩)] [(1, ⟨100, 50, 77⟩)] [1] [(9, 9)] [3] = (false, [], []) :=
  (do_import_skips_iff ImportType.importIfImportDataStale 50 100
      [(1, ⟨100, 50, 77⟩)] [(1, ⟨100, 50, 77⟩)] [1] [(9, 9)] [3]).mpr
    ⟨rfl, fun id hid => by
      simp only [List.mem_singleton] at hid
      subst hid
      exact ⟨⟨100, 50, 77⟩, rfl, rfl, rfl, ⟨100, 50, 77⟩, rfl, rfl, rfl, rfl⟩⟩

/-- The big-endian byte decomposition always yields `count` bytes. -/
theorem natToBytes_length (n v : Nat) : (natToBytes n v).length = n := by
  induction n generalizing v with
  | zero => simp [natToBytes]
  | succ n ih => simp [natToBytes, ih]

/-- Reassembling the big-endian byte decomposition recovers the value
modulo `256 ^ count`. -/
theorem bytes_to_uuid_natToBytes (n v : Nat) :
    bytes_to_uuid (natToBytes n v) = v % 256 ^ n := by
  induction n generalizing v with
  | zero => simp [natToBytes, bytes_to_uuid, Nat.mod_one]
  | succ n ih =>
    have ihv := ih (v / 256)
    unfold bytes_to_uuid at ihv ⊢
    unfold natToBytes
    rw [List.foldl_append]
    simp only [List.foldl_cons, List.foldl_nil]
    rw [ihv]
    have h1 : v % (256 * 256 ^ n) / 256 = v / 256 % 256 ^ n :=
      Nat.mod_mul_right_div_self v 256 (256 ^ n)
    have h2 : v % (256 * 256 ^ n) % 256 = v % 256 :=
      Nat.mod_mod_of_dvd v ⟨256 ^ n, rfl⟩
    have h3 := Nat.div_add_mod (v % (256 * 256 ^ n)) 256
    have hpow : 256 ^ (n + 1) = 256 * 256 ^ n := by ring
    rw [hpow]
    generalize hX : v % (256 * 256 ^ n) = X at h1 h2 h3 ⊢
    generalize hA : v / 256 % 256 ^ n = A at h1 ⊢
    clear hX hA hpow ihv ih
    omega

/-- C8: with an active serde scope, serializing a handle emits exactly the
16 bytes of the artifact id the scope's loader maps for its load handle;
deserializing a handle with no active scope is a fatal error; with an
active scope, deserializing those 16 bytes yields an internal handle bound
to the load handle the scope's loader maps for that artifact id. -/
theorem handle_serde_wire_format :
    ∀ (sc : SerdeScope) (load : LoadHandle) (artifact : ArtifactId) (h : LoadHandle)
      (bytes : List Nat),
      (alookup sc.artifact_id_of load = some artifact →
          serialize_handle (some sc) load = some (uuid_bytes artifact)
            ∧ (uuid_bytes artifact).length = 16)
        ∧ deserialize_handle none bytes = none
        ∧ (artifact < 2 ^ 128 → artifact ≠ 0 →
            alookup sc.load_handle_of artifact = some h →
            deserialize_handle (some sc) (uuid_bytes artifact)
              = some ⟨h, HandleRefType.internal⟩) := by
  intro sc load artifact h bytes
  refine ⟨?_, ?_, ?_⟩
  · intro hmap
    refine ⟨?_, natToBytes_length 16 artifact⟩
    simp [serialize_handle, hmap]
  · unfold deserialize_handle
    split
    · rfl
    · rfl
  · intro hlt hne hmap
    have hb : bytes_to_uuid (uuid_bytes artifact) = artifact := by
      rw [uuid_bytes, bytes_to_uuid_natToBytes]
      exact Nat.mod_eq_of_lt (by norm_num at hlt ⊢; exact hlt)
    unfold deserialize_handle
    rw [if_neg (by simp [natToBytes_length 16 artifact, uuid_bytes])]
    simp [hb, hne, hmap]

/-- Witness for C8: a scope mapping load handle 5 ↔ artifact id 9. -/
theorem handle_serde_wire_format_witness :
    serialize_handle (some ⟨[(5, 9)], [(9, 5)]⟩) 5 = some (uuid_bytes 9)
      ∧ deserialize_handle (some ⟨[(5, 9)], [(9, 5)]⟩) (uuid_bytes 9)
          = some ⟨5, HandleRefType.internal⟩ := by
  have t := handle_serde_wire_format ⟨[(5, 9)], [(9, 5)]⟩ 5 9 5 []
  exact ⟨(t.1 (by decide)).1, t.2.2 (by norm_num) (by decide) (by decide)⟩

/-- C9: path population is total for every data set — `do_populate_path` is
a Lean function defined by well-founded recursion on the count of objects
not yet visited, so it terminates even when location parent links form a
cycle — and on re-entering a node that is already on the visited stack the
walk does not recurse: the node is treated as rooted at the source root
path, which is cached and returned. -/
theorem do_populate_path_cycle_rooted :
    ∀ (ds : DataSet) (stack : List ObjectId) (paths : List (ObjectId × ObjectPath))
      (node : ObjectId),
      node ≠ 0 → alookup paths node = none → node ∈ stack →
      do_populate_path ds stack paths node = (ainsert paths node [], []) := by
  intro ds stack paths node hnull hcache hmem
  rw [do_populate_path]
  simp [hnull, hcache, hmem]

/-- Witness for C9: in the cyclic data set (1's parent is 2, 2's parent is
1), re-entering node 1 with 1 already on the visited stack returns the root
path instead of recursing. -/
theorem do_populate_path_cycle_rooted_witness :
    do_populate_path cyclicDs [2, 1] [] 1 = (ainsert [] 1 [], []) :=
  do_populate_path_cycle_rooted cyclicDs [2, 1] [] 1 (by decide) rfl (by decide)

/-- C3: whenever `set_property_override` returns reporting failure —
because the value's variant does not match the schema at the path, a
nullable ancestor does not resolve to non-null, or an accessed
dynamic-array UUID is not live — the data set is completely unchanged; on
success the sole change is storing the override on the target object. -/
theorem set_property_override_all_or_nothing :
    ∀ (ds : DataSet) (ss : SchemaMap) (fuel : Nat) (object_id : ObjectId)
      (path : PropPath) (value : Value) (ok : Bool) (ds' : DataSet),
      set_property_override ds ss fuel object_id path value = some (ok, ds') →
      (ok = false → ds' = ds)
        ∧ (ok = true → ∃ obj, alookup ds.objects object_id = some obj
            ∧ ds' = ⟨ainsert ds.objects object_id
                { obj with properties := ainsert obj.properties path value }⟩) := by
  intro ds ss fuel object_id path value ok ds' h
  unfold set_property_override at h
  cases hobj : alookup ds.objects object_id with
  | none => rw [hobj] at h; exact absurd h (by simp)
  | some obj =>
    rw [hobj] at h
    simp only [] at h
    cases hs : obj.schema.find_property_schema ss path with
    | none => rw [hs] at h; exact absurd h (by simp)
    | some property_schema =>
      rw [hs] at h
      simp only [] at h
      by_cases hm : value.matches_schema property_schema ss = true
      · rw [if_neg (by simp [hm])] at h
        cases hanc : property_schema_and_path_ancestors_to_check ss obj.schema path with
        | none => rw [hanc] at h; exact absurd h (by simp)
        | some pair =>
          rw [hanc] at h
          obtain ⟨s, lists⟩ := pair
          simp only [] at h
          cases hnla : check_nullable_ancestors (resolve_is_null ds ss fuel object_id)
              lists.nullable_ancestors with
          | none => rw [hnla] at h; exact absurd h (by simp)
          | some b1 =>
            rw [hnla] at h
            cases b1 with
            | false =>
              simp only [Option.some.injEq, Prod.mk.injEq] at h
              refine ⟨fun _ => h.2.symm, fun hok => ?_⟩
              rw [← h.1] at hok
              exact absurd hok (by simp)
            | true =>
              simp only [] at h
              cases hkeys : check_accessed_keys (resolve_dynamic_array ds ss fuel object_id)
                  lists.accessed_dynamic_array_keys with
              | none => rw [hkeys] at h; exact absurd h (by simp)
              | some b2 =>
                rw [hkeys] at h
                cases b2 with
                | false =>
                  simp only [Option.some.injEq, Prod.mk.injEq] at h
                  refine ⟨fun _ => h.2.symm, fun hok => ?_⟩
                  rw [← h.1] at hok
                  exact absurd hok (by simp)
                | true =>
                  simp only [Option.some.injEq, Prod.mk.injEq] at h
                  refine ⟨fun hok => ?_, fun _ => ⟨obj, rfl, h.2.symm⟩⟩
                  rw [← h.1] at hok
                  exact absurd hok (by simp)
      · rw [if_pos (by simpa using hm)] at h
        simp only [Option.some.injEq, Prod.mk.injEq] at h
        refine ⟨fun _ => h.2.symm, fun hok => ?_⟩
        rw [← h.1] at hok
        exact absurd hok (by simp)

/-- Witness for C3: setting a boolean value at the i32 field `x` fails the
schema match and leaves the sample data set unchanged. -/
theorem set_property_override_all_or_nothing_witness :
    (false = false → sampleDs = sampleDs)
      ∧ (false = true → ∃ obj, alookup sampleDs.objects 2 = some obj
          ∧ sampleDs = ⟨ainsert sampleDs.objects 2
              { obj with properties :=
                  ainsert obj.properties [PathToken.field "x"] (Value.boolean true) }⟩) :=
  set_property_override_all_or_nothing sampleDs [] 3 2 [PathToken.field "x"]
    (Value.boolean true) false sampleDs (by decide)

/-- C2: for an object with a resolvable dynamic-array path,
`resolve_dynamic_array` returns the prototype-resolved list — empty when
the path itself or any of its dynamic-array/map ancestors is in the
object's replace-mode set — concatenated with the object's local entries,
in that order (prototype entries first, then the local entries in their
stored insertion order). -/
theorem resolve_dynamic_array_merge :
    ∀ (ds : DataSet) (ss : SchemaMap) (fuel : Nat) (object_id : ObjectId) (path : PropPath)
      (obj : DataObjectInfo) (s : Schema) (lists : AncestorLists) (protoPart : List Uuid),
      alookup ds.objects object_id = some obj →
      property_schema_and_path_ancestors_to_check ss obj.schema path = some (s, lists) →
      check_nullable_ancestors (resolve_is_null ds ss (fuel + 1) object_id)
          lists.nullable_ancestors = some true →
      check_accessed_keys (resolve_dynamic_array ds ss (fuel + 1) object_id)
          lists.accessed_dynamic_array_keys = some true →
      (if in_replace_mode obj lists path then some []
       else
         match obj.prototype with
         | some proto => do_resolve_dynamic_array ds fuel proto path lists
         | none => some []) = some protoPart →
      resolve_dynamic_array ds ss (fuel + 2) object_id path
          = some (protoPart ++ (alookup obj.dynamic_array_entries path).getD [])
        ∧ (in_replace_mode obj lists path = true → protoPart = []) := by
  intro ds ss fuel object_id path obj s lists protoPart hobj hanc hnla hkeys hproto
  constructor
  · have hstep : do_resolve_dynamic_array ds (fuel + 1) object_id path lists
        = some (protoPart ++ (alookup obj.dynamic_array_entries path).getD []) := by
      rw [do_resolve_dynamic_array]
      rw [hobj]
      simp only []
      cases hrm : in_replace_mode obj lists path with
      | true =>
        rw [if_neg (by simp [hrm])]
        rw [hrm] at hproto
        simp only [if_true] at hproto
        cases hproto
        rfl
      | false =>
        rw [if_pos (by simp [hrm])]
        rw [hrm] at hproto
        simp only [if_false, Bool.false_eq_true] at hproto
        rw [hproto]
    show resolve_dynamic_array ds ss (fuel + 1 + 1) object_id path = _
    rw [resolve_dynamic_array]
    rw [hobj]
    simp only []
    rw [hanc]
    simp only []
    rw [hnla]
    simp only []
    rw [hkeys]
    simp only []
    exact hstep
  · intro hrm
    rw [hrm] at hproto
    simp only [if_true] at hproto
    cases hproto
    rfl

/-- Witness for C2: resolving `xs` on the sample child appends its local
entry `[12]` after the prototype's entries `[10, 11]`. -/
theorem resolve_dynamic_array_merge_witness :
    resolve_dynamic_array sampleDs [] 3 2 [PathToken.field "xs"]
        = some ([10, 11] ++ (alookup sampleChild.dynamic_array_entries
            [PathToken.field "xs"]).getD [])
      ∧ (in_replace_mode sampleChild {} [PathToken.field "xs"] = true → [10, 11] = ([] : List Uuid)) :=
  resolve_dynamic_array_merge sampleDs [] 1 2 [PathToken.field "xs"] sampleChild
    (Schema.dynamicArray Schema.i32) {} [10, 11] (by decide) (by decide) rfl rfl (by decide)

/-- The chain walk of `resolve_property` agrees with the specification view:
when the prototype chain from `start` is fully materialisable within the
fuel, the loop returns exactly the first override found along that chain. -/
theorem findValueOverrideInChain_eq :
    ∀ (ds : DataSet) (fuel : Nat) (start : Option ObjectId) (path : PropPath)
      (chain : List DataObjectInfo),
      prototype_chain ds fuel start = some chain →
      findValueOverrideInChain ds fuel start path
        = some (first_override_in_chain path chain) := by
  intro ds fuel
  induction fuel with
  | zero =>
    intro start path chain h
    cases start with
    | none =>
      simp only [prototype_chain, Option.some.injEq] at h
      subst h
      rfl
    | some object_id => exact absurd h (by simp [prototype_chain])
  | succ fuel ih =>
    intro start path chain h
    cases start with
    | none =>
      simp only [prototype_chain, Option.some.injEq] at h
      subst h
      rfl
    | some object_id =>
      rw [prototype_chain] at h
      cases hobj : alookup ds.objects object_id with
      | none => rw [hobj] at h; exact absurd h (by simp)
      | some obj =>
        rw [hobj] at h
        simp only [] at h
        cases hrest : prototype_chain ds fuel obj.prototype with
        | none => rw [hrest] at h; exact absurd h (by simp)
        | some rest =>
          rw [hrest] at h
          simp only [Option.some.injEq] at h
          subst h
          rw [findValueOverrideInChain]
          rw [hobj]
          simp only []
          cases hover : alookup obj.properties path with
          | some v => simp [first_override_in_chain, hover]
          | none =>
            simp only [first_override_in_chain, hover]
            exact ih obj.prototype path rest hrest

/-- C1: for a property path that is resolvable at an asset (every nullable
ancestor resolves to non-null and every accessed dynamic-array UUID is
live) whose prototype chain materialises within the fuel,
`resolve_property` returns the nearest override found while walking the
prototype chain starting at the asset itself, and the schema default value
for the terminal schema at the path when no asset in the chain carries an
override. -/
theorem resolve_property_nearest_override :
    ∀ (ds : DataSet) (ss : SchemaMap) (fuel : Nat) (object_id : ObjectId) (path : PropPath)
      (obj : DataObjectInfo) (s : Schema) (lists : AncestorLists)
      (chain : List DataObjectInfo),
      alookup ds.objects object_id = some obj →
      property_schema_and_path_ancestors_to_check ss obj.schema path = some (s, lists) →
      check_nullable_ancestors (resolve_is_null ds ss fuel object_id)
          lists.nullable_ancestors = some true →
      check_accessed_keys (resolve_dynamic_array ds ss fuel object_id)
          lists.accessed_dynamic_array_keys = some true →
      prototype_chain ds fuel (some object_id) = some chain →
      resolve_property ds ss fuel object_id path
        = some (some ((first_override_in_chain path chain).getD
            (Value.default_for_schema ss s))) := by
  intro ds ss fuel object_id path obj s lists chain hobj hanc hnla hkeys hchain
  unfold resolve_property
  rw [hobj]
  simp only []
  rw [hanc]
  simp only []
  rw [hnla]
  simp only []
  rw [hkeys]
  simp only []
  rw [findValueOverrideInChain_eq ds fuel (some object_id) path chain hchain]
  cases first_override_in_chain path chain with
  | none => rfl
  | some v => rfl

/-- Witness for C1: the child asset has no local `x` override, so the
prototype's override `x = 5` — the nearest along the chain — is returned. -/
theorem resolve_property_nearest_override_witness :
    resolve_property sampleDs [] 2 2 [PathToken.field "x"]
      = some (some ((first_override_in_chain [PathToken.field "x"]
          [sampleChild, sampleProto]).getD (Value.default_for_schema [] Schema.i32))) :=
  resolve_property_nearest_override sampleDs [] 2 2 [PathToken.field "x"] sampleChild
    Schema.i32 {} [sampleChild, sampleProto] (by decide) (by decide) rfl rfl (by decide)

end Hydrate
